import Mathlib

/-!
Verification of the answer-evaluation / auto-grading engine of the
Gradewise-AI backend.

Shallow embedding conventions:
* JavaScript strings are modeled as lists of Unicode code points
  (`JSString := List Nat`); only the ASCII behavior of `toLowerCase`,
  `\s`, `\w` matters for the grading code and is modeled exactly.
* `null`/`undefined` JavaScript values are modeled as `Option.none`.
* Database NUMERIC columns (positive_marks, negative_marks, scores) reach
  JavaScript as decimal *strings* via node-postgres, so a stored value of
  0 is still truthy; only SQL NULL is falsy.  Marks are therefore modeled
  as `Option ℚ` where `none` is SQL NULL and `some x` (any x, including
  0) is truthy.
* Fallible JavaScript code (a thrown TypeError) is modeled with `Except`.
-/

/-- A JavaScript string, as its list of code points. -/
abbrev JSString := List Nat

/-- Code points of a Lean string literal, for concrete test inputs. -/
def jstr (s : String) : JSString := s.data.map Char.toNat

/-- Model of JavaScript `String.prototype.toLowerCase` on one code point
(ASCII range; the grading code only compares ASCII answers). -/
def jsLowerChar (c : Nat) : Nat := if 65 ≤ c ∧ c ≤ 90 then c + 32 else c

/-- Model of the regex class `\s` (ASCII whitespace). -/
def isWsChar (c : Nat) : Bool :=
  c = 32 || c = 9 || c = 10 || c = 13 || c = 11 || c = 12

/-- Model of the regex class `\w` = `[A-Za-z0-9_]`. -/
def isWordChar (c : Nat) : Bool :=
  (97 ≤ c && c ≤ 122) || (65 ≤ c && c ≤ 90) || (48 ≤ c && c ≤ 57) || c = 95

/-- Model of `s.toLowerCase()`. -/
def lowerStr (s : JSString) : JSString := s.map jsLowerChar

/-- Drop the characters satisfying `p` from both ends of a string. -/
def edgeDrop (p : Nat → Bool) (s : JSString) : JSString :=
  ((s.dropWhile p).reverse.dropWhile p).reverse

/-- Model of `s.trim()`. -/
def trimStr (s : JSString) : JSString := edgeDrop isWsChar s

/-- Model of `s.replace(/[^\w\s]/g, "")`. -/
def stripNonWord (s : JSString) : JSString :=
  s.filter (fun c => isWordChar c || isWsChar c)

/-- Helper for `collapseWs`: `prevWs` records whether the previous kept
position ended inside a whitespace run. -/
def collapseWsAux : Bool → JSString → JSString
  | _, [] => []
  | prevWs, c :: rest =>
    if isWsChar c then
      if prevWs then collapseWsAux true rest
      else 32 :: collapseWsAux true rest
    else c :: collapseWsAux false rest

/-- Model of `s.replace(/\s+/g, " ")`: each maximal whitespace run becomes one space. -/
def collapseWs (s : JSString) : JSString := collapseWsAux false s

/-- The function `normalizeText` from the short-answer submission path
(`src/services/redis.js`):
`text.toLowerCase().replace(/[^\w\s]/g, "").replace(/\s+/g, " ").trim()`. -/
def normalizeText (s : JSString) : JSString :=
  trimStr (collapseWs (stripNonWord (lowerStr s)))

/-- Model of `s.replace(/\\"/g, '"')`: each backslash-quote pair (92, 34) becomes a
quote (34), scanning left to right. -/
def replaceBQ : JSString → JSString
  | [] => []
  | [a] => [a]
  | a :: b :: rest =>
    if a = 92 ∧ b = 34 then 34 :: replaceBQ rest
    else a :: replaceBQ (b :: rest)

/-- The `clean` helper of `submitAssessmentForStudent`
(`src/services/redis.js`): `null`/`undefined` become `""`, otherwise
`String(val).trim().toLowerCase().replace(/\\"/g, '"')`. -/
def cleanVal (v : Option JSString) : JSString :=
  match v with
  | none => []
  | some s => replaceBQ (lowerStr (trimStr s))

/-- The regex class `["'\s]` used by the analytics `clean`. -/
def isQsChar (c : Nat) : Bool := c = 34 || c = 39 || isWsChar c

/-- Model of `s.replace(/^["'\s]+|["'\s]+$/g, '')`: strip quotes/whitespace from
both ends. -/
def stripQS (s : JSString) : JSString := edgeDrop isQsChar s

/-- The `clean` helper of `getStudentAttemptQuestionsModel`
(analytics model): `String(str || "").replace(/\\"/g,'"')
.replace(/^["'\s]+|["'\s]+$/g,'').trim().toLowerCase()`. -/
def cleanAnalytics (v : Option JSString) : JSString :=
  lowerStr (trimStr (stripQS (replaceBQ (v.getD []))))

/-- Does the second list start with the first one? -/
def leadsWith : JSString → JSString → Bool
  | [], _ => true
  | _ :: _, [] => false
  | a :: as, b :: bs => a == b && leadsWith as bs

/-- Model of `hay.includes(needle)`: substring containment (JavaScript
`String.prototype.includes`). -/
def hasSub (hay needle : JSString) : Bool :=
  if leadsWith needle hay then true
  else match hay with
    | [] => false
    | _ :: t => hasSub t needle

/-- Model of `Math.round(x)`: round half toward positive infinity. -/
def jsRound (x : ℚ) : ℤ := ⌊x + 1/2⌋

/-- A parsed short-answer grading rule, the structured form of
`correct_answer` for `short_answer` questions:
`{required_keywords: [...], min_required_match: n}` (either field may be
absent). -/
structure SARule where
  required_keywords : Option (List JSString)
  min_required_match : Option Nat
deriving DecidableEq

/-- The keyword-counting loop of `evaluateShortAnswer`: for each required
keyword, increment when its normalized form is a substring of the
normalized answer. -/
def countMatched (answer : JSString) (required : List JSString) : Nat :=
  required.foldl (fun acc kw => if hasSub answer (normalizeText kw) then acc + 1 else acc) 0

/-- The function `evaluateShortAnswer(studentAnswer, rule)` from `src/services/redis.js`:
falsy answer or rule → false; otherwise count required keywords occurring
in the normalized answer and compare with
`rule.min_required_match || required.length` (JavaScript `||`: the default
also fires when `min_required_match` is 0). -/
def evaluateShortAnswer (studentAnswer : Option JSString) (rule : Option SARule) : Bool :=
  match studentAnswer, rule with
  | none, _ => false
  | _, none => false
  | some s, some r =>
    if s = [] then false
    else
      let answer := normalizeText s
      let required := r.required_keywords.getD []
      let minMatch : Nat :=
        match r.min_required_match with
        | some m => if m = 0 then required.length else m
        | none => required.length
      decide (countMatched answer required ≥ minMatch)

/-- The spec's reading of the same rule (for comparison): the default
threshold applies only when `min_required_match` is absent. -/
def evaluateShortAnswerSpec (studentAnswer : Option JSString) (rule : Option SARule) : Bool :=
  match studentAnswer, rule with
  | none, _ => false
  | _, none => false
  | some s, some r =>
    if s = [] then false
    else
      let answer := normalizeText s
      let required := r.required_keywords.getD []
      decide (countMatched answer required ≥ r.min_required_match.getD required.length)

/-- The threshold actually used by `evaluateShortAnswer`:
`rule.min_required_match || required.length` under JavaScript truthiness
(0, null and undefined all fall back to the keyword count). -/
def effectiveMinMatch (r : SARule) (rk : List JSString) : Nat :=
  match r.min_required_match with
  | some m => if m = 0 then rk.length else m
  | none => rk.length

/-- A question row as the submission path
(`submitAssessmentForStudent`, `src/services/redis.js`) uses it:
for `short_answer` questions `correct_answer` holds a (parsed) rule,
otherwise a plain value.  `positive_marks`/`negative_marks` are NUMERIC
columns: `none` is SQL NULL, `some x` arrives as a decimal string and is
always truthy. -/
structure SubQuestion where
  isShortAnswer : Bool
  rule : Option SARule
  correct_answer : Option JSString
  positive_marks : Option ℚ
  negative_marks : Option ℚ

/-- The per-question correctness check of the submission path: the
short-answer branch calls `evaluateShortAnswer`; every other type compares
`clean(correct_answer) === clean(studentAnswer)`. -/
def submissionIsCorrect (q : SubQuestion) (studentAnswer : Option JSString) : Bool :=
  if q.isShortAnswer then evaluateShortAnswer studentAnswer q.rule
  else cleanVal q.correct_answer == cleanVal studentAnswer

/-- The per-question score of the submission path:
`isCorrect ? parseFloat(q.positive_marks || 1)
 : (studentAnswer !== null && studentAnswer !== undefined
    ? -Math.abs(parseFloat(q.negative_marks || 0)) : 0)`. -/
def questionScore (isCorrect : Bool) (studentAnswer : Option JSString)
    (pos neg : Option ℚ) : ℚ :=
  if isCorrect then pos.getD 1
  else if studentAnswer.isSome then -|neg.getD 0| else 0

/-- The submission loop over all questions of the attempt: returns the
list of per-question scores written to `student_answers` and the running
`totalScore` before clamping. -/
def submitLoop : List (SubQuestion × Option JSString) → List ℚ × ℚ
  | [] => ([], 0)
  | (q, a) :: rest =>
    let score := questionScore (submissionIsCorrect q a) a q.positive_marks q.negative_marks
    let r := submitLoop rest
    (score :: r.1, score + r.2)

/-- The attempt score persisted on `assessment_attempts`:
`totalScore = Math.max(0, totalScore)` after the loop. -/
def persistedTotal (items : List (SubQuestion × Option JSString)) : ℚ :=
  max 0 (submitLoop items).2

/-- Per-question score of one submission item, as stored (unclamped). -/
def storedScore (item : SubQuestion × Option JSString) : ℚ :=
  questionScore (submissionIsCorrect item.1 item.2) item.2 item.1.positive_marks item.1.negative_marks

/-!
The consolidated grading service (`src/services/autoGradingService.js`).
-/

/-- A grading result as produced by the evaluators of
`autoGradingService.js` and written back to `student_answers`. -/
structure GradeOut where
  scored_marks : ℚ
  feedback : String
  grading_method : String
  grading_notes : String
deriving DecidableEq

mutual

/-- Model of `s.split(/\s+/)`, accumulating the current token (reversed). -/
def splitWsAux : JSString → JSString → List JSString
  | acc, [] => [acc.reverse]
  | acc, c :: rest =>
    if isWsChar c then acc.reverse :: splitWsSkip rest
    else splitWsAux (c :: acc) rest

/-- Model of `s.split(/\s+/)`, inside a whitespace run. -/
def splitWsSkip : JSString → List JSString
  | [] => [[]]
  | c :: rest => if isWsChar c then splitWsSkip rest else splitWsAux [c] rest

end

/-- JavaScript `s.split(/\s+/)`: tokens between maximal whitespace runs;
a leading or trailing run contributes an empty token, as in JavaScript. -/
def splitWs (s : JSString) : List JSString := splitWsAux [] s

/-- The function `gradeMultipleChoice(selectedOptions, correctAnswer, marks)`:
no selection → 0; otherwise full marks iff the correct answer is a member
of the selected options. -/
def gradeMultipleChoice (selectedOptions : Option (List JSString))
    (correctAnswer : Option JSString) (marks : ℚ) : GradeOut :=
  match selectedOptions with
  | none => ⟨0, "No answer provided", "auto", ""⟩
  | some opts =>
    if opts.isEmpty then ⟨0, "No answer provided", "auto", ""⟩
    else
      let isCorrect := match correctAnswer with
        | some c => opts.contains c
        | none => false
      ⟨if isCorrect then marks else 0,
       if isCorrect then "Correct answer" else "Incorrect", "auto", ""⟩

/-- The function `gradeTrueFalse(studentAnswer, correctAnswer, marks)`: throws a
TypeError (modeled as `Except.error`) when the student answered but
`correct_answer` is SQL NULL, because of
`correctAnswer.toLowerCase()`. -/
def gradeTrueFalseE (studentAnswer correctAnswer : Option JSString)
    (marks : ℚ) : Except String GradeOut :=
  match studentAnswer with
  | none => .ok ⟨0, "No answer provided", "auto", ""⟩
  | some s =>
    if s = [] then .ok ⟨0, "No answer provided", "auto", ""⟩
    else match correctAnswer with
      | none => .error "Cannot read properties of null"
      | some c =>
        let isCorrect := lowerStr s = lowerStr c
        .ok ⟨if isCorrect then marks else 0,
             if isCorrect then "Correct answer" else "Incorrect", "auto", ""⟩

/-- The matched-word counting loop shared by `gradeByKeywordMatching`
(student tokens contain the expected token). -/
def countTokenMatches (studentWords : List JSString) (words : List JSString) : Nat :=
  words.foldl (fun acc w => if studentWords.contains w then acc + 1 else acc) 0

/-- The function `gradeByKeywordMatching(studentAnswer, expectedAnswer, marks)`:
whole-token matching of the expected answer's words against the student
answer's words, partial credit proportional to the match ratio. -/
def gradeByKeywordMatching (studentAnswer : JSString)
    (expectedAnswer : Option JSString) (marks : ℚ) : GradeOut :=
  match expectedAnswer with
  | none => ⟨0, "No expected answer provided for comparison", "manual", ""⟩
  | some e =>
    if e = [] then ⟨0, "No expected answer provided for comparison", "manual", ""⟩
    else
      let studentWords := splitWs (lowerStr studentAnswer)
      let expectedWords := splitWs (lowerStr e)
      let matchedWords := countTokenMatches studentWords expectedWords
      let matchPercentage : ℚ :=
        if expectedWords.length > 0 then (matchedWords : ℚ) / expectedWords.length else 0
      ⟨((jsRound (matchPercentage * marks) : ℤ) : ℚ), "Keyword matching", "auto", ""⟩

/-- One criterion of an essay/short-answer rubric. -/
structure Criterion where
  name : String
  max_marks : ℚ
  keywords : Option (List JSString)
  description : Option String

/-- A parsed rubric: `{criteria: [...]}` (the list may be absent). -/
structure Rubric where
  criteria : Option (List Criterion)

/-- The rubric value attached to a question before parsing: either valid
structured data or a string on which `JSON.parse` throws. -/
inductive RubricInput
  | parsed (r : Rubric)
  | malformed (raw : String)

/-- Score of one rubric criterion in `applyRubricGrading`: keyword
token-matching when keywords exist, else a length heuristic against a
50-character minimum when a description exists, else 0. -/
def criterionScore (studentAnswer : JSString) (c : Criterion) : ℚ :=
  match c.keywords with
  | some kws =>
    if kws.length > 0 then
      let studentWords := splitWs (lowerStr studentAnswer)
      let keywordMatches := kws.foldl
        (fun acc k => if studentWords.contains (lowerStr k) then acc + 1 else acc) 0
      ((jsRound ((keywordMatches : ℚ) / kws.length * c.max_marks) : ℤ) : ℚ)
    else criterionDescScore studentAnswer c
  | none => criterionDescScore studentAnswer c
where
  criterionDescScore (studentAnswer : JSString) (c : Criterion) : ℚ :=
    match c.description with
    | some d =>
      if d.isEmpty then 0
      else
        let answerLength : ℚ := studentAnswer.length
        if answerLength ≥ 50 then
          min ((jsRound (answerLength / 50 * c.max_marks) : ℤ) : ℚ) c.max_marks
        else ((jsRound (answerLength / 50 * c.max_marks) : ℤ) : ℚ)
    | none => 0

/-- The function `applyRubricGrading(studentAnswer, rubric, marks)`: sum the criterion
scores over `rubric.criteria || []`; the result is always
`grading_method = "auto"`, even for an empty criteria list. -/
def applyRubricGrading (studentAnswer : JSString) (rubric : Rubric)
    (marks : ℚ) : GradeOut :=
  let crits := rubric.criteria.getD []
  let totalScore := crits.foldl (fun acc c => acc + criterionScore studentAnswer c) 0
  ⟨totalScore, "rubric", "auto", "rubric"⟩

/-- The function `gradeShortAnswer(studentAnswer, expectedAnswer, rubric, marks)`:
empty answer → auto 0; no rubric or malformed rubric → keyword-matching
fallback; parsed rubric → rubric grading. -/
def gradeShortAnswer (studentAnswer expectedAnswer : Option JSString)
    (rubric : Option RubricInput) (marks : ℚ) : GradeOut :=
  match studentAnswer with
  | none => ⟨0, "No answer provided", "auto", ""⟩
  | some s =>
    if trimStr s = [] then ⟨0, "No answer provided", "auto", ""⟩
    else match rubric with
      | none => gradeByKeywordMatching s expectedAnswer marks
      | some (.parsed r) => applyRubricGrading s r marks
      | some (.malformed _) => gradeByKeywordMatching s expectedAnswer marks

/-- The function `gradeEssay(studentAnswer, rubric, marks)`: empty answer → manual 0;
no rubric → manual 0 with a note; malformed rubric → manual 0 with a
parse-failure note; parsed rubric → rubric grading. -/
def gradeEssay (studentAnswer : Option JSString) (rubric : Option RubricInput)
    (marks : ℚ) : GradeOut :=
  match studentAnswer with
  | none => ⟨0, "No answer provided", "manual", ""⟩
  | some s =>
    if trimStr s = [] then ⟨0, "No answer provided", "manual", ""⟩
    else match rubric with
      | none => ⟨0, "Essay requires manual grading", "manual",
                 "No rubric provided for essay grading"⟩
      | some (.parsed r) => applyRubricGrading s r marks
      | some (.malformed _) => ⟨0, "Essay requires manual grading", "manual",
                                "Rubric parsing failed"⟩

/-- Question types dispatched by `gradeQuestion`. -/
inductive QType
  | mcq
  | trueFalse
  | shortAnswer
  | essay
  | other (tag : String)

/-- One row of `getQuestionsAndAnswers`: a question joined with the
student's answer for the attempt. -/
structure QA where
  question_id : Nat
  question_type : QType
  correct_answer : Option JSString
  expected_answer : Option JSString
  rubric : Option RubricInput
  marks : ℚ
  student_answer : Option JSString
  selected_options : Option (List JSString)

/-- The body of `gradeQuestion`'s `switch` (before its `try/catch`):
`Except.error` models an exception thrown by an evaluator. -/
def evalQuestionE (qa : QA) : Except String GradeOut :=
  match qa.question_type with
  | .mcq => .ok (gradeMultipleChoice qa.selected_options qa.correct_answer qa.marks)
  | .trueFalse => gradeTrueFalseE qa.student_answer qa.correct_answer qa.marks
  | .shortAnswer => .ok (gradeShortAnswer qa.student_answer qa.expected_answer qa.rubric qa.marks)
  | .essay => .ok (gradeEssay qa.student_answer qa.rubric qa.marks)
  | .other _ => .ok ⟨0, "Question type not supported for auto-grading", "manual", ""⟩

/-- The function `gradeQuestion` with its `catch`: an exception becomes a
manual-review record with zero marks and an error note. -/
def gradeQuestionTotal (qa : QA) : GradeOut :=
  match evalQuestionE qa with
  | .ok r => r
  | .error msg =>
    ⟨0, "Auto-grading failed - requires manual review", "manual",
     "Error: " ++ msg⟩

/-- The per-question loop of `gradeAssessmentAttempt`: one grading result
per question, in order. -/
def gradeLoop : List QA → List GradeOut
  | [] => []
  | qa :: rest => gradeQuestionTotal qa :: gradeLoop rest

/-- The accumulators of `gradeAssessmentAttempt`'s loop:
(totalMarks, scoredMarks, autoGradedCount, manualGradingRequired). -/
def gradeAgg : List QA → ℚ × ℚ × Nat × Nat
  | [] => (0, 0, 0, 0)
  | qa :: rest =>
    let r := gradeQuestionTotal qa
    let t := gradeAgg rest
    (qa.marks + t.1, r.scored_marks + t.2.1,
     (if r.grading_method = "auto" then 1 else 0) + t.2.2.1,
     (if r.grading_method = "auto" then 0 else 1) + t.2.2.2)

/-- The attempt-level grading record persisted by
`updateAttemptGrading`. -/
structure AttemptGrading where
  total_marks : ℚ
  scored_marks : ℚ
  percentage : ℚ
  auto_graded_count : Nat
  manual_grading_required : Nat
  grading_status : String
  results : List GradeOut

/-- The function `gradeAssessmentAttempt(attemptId)`: grade every question, sum marks,
and compute `percentage = totalMarks > 0 ?
Math.round((scoredMarks / totalMarks) * 100) : 0`. -/
def gradeAssessmentAttempt (qs : List QA) : AttemptGrading :=
  let a := gradeAgg qs
  { total_marks := a.1
    scored_marks := a.2.1
    percentage := if a.1 > 0 then ((jsRound (a.2.1 / a.1 * 100) : ℤ) : ℚ) else 0
    auto_graded_count := a.2.2.1
    manual_grading_required := a.2.2.2
    grading_status := if a.2.2.2 > 0 then "partially_graded" else "fully_graded"
    results := gradeLoop qs }

/-- The percentage computed by `getAssessmentStudentsModel`
(analytics model): `row.max_possible_score > 0 ?
Math.round((row.obtained_score / row.max_possible_score) * 100) : 0`. -/
def studentPercentage (obtained maxScore : ℚ) : ℚ :=
  if maxScore > 0 then ((jsRound (obtained / maxScore * 100) : ℤ) : ℚ) else 0

/-- The spec's `round(x, 2)`: round to two decimal places. -/
def round2Spec (x : ℚ) : ℚ := ((jsRound (x * 100) : ℤ) : ℚ) / 100

/-- A `student_answers` row, with the columns touched or read by
`overrideGrading`. -/
structure AnswerRow where
  id : Nat
  attempt_id : Nat
  student_answer : Option JSString
  scored_marks : ℚ
  grading_method : String
  feedback : String
  grading_notes : String
  overridden_by : Option Nat
  overridden_at : Option Nat
deriving DecidableEq

/-- An `assessment_attempts` row's aggregate score column. -/
structure AttemptRow where
  id : Nat
  scored_marks : ℚ
deriving DecidableEq

/-- The two tables `overrideGrading` could touch. -/
structure GradingDB where
  answers : List AnswerRow
  attempts : List AttemptRow
deriving DecidableEq

/-- The row update of `overrideGrading`'s SQL `UPDATE student_answers ...
WHERE id = $5`. -/
def overrideRow (answerId : Nat) (newScore : ℚ) (feedback overrideReason : String)
    (instructorId now : Nat) (a : AnswerRow) : AnswerRow :=
  if a.id = answerId then
    { a with scored_marks := newScore, feedback := feedback,
             grading_method := "manual_override", grading_notes := overrideReason,
             overridden_by := some instructorId, overridden_at := some now }
  else a

/-- The function `overrideGrading(answerId, newScore, feedback, overrideReason,
instructorId)`: a single UPDATE on `student_answers`; `assessment_attempts`
is not touched. -/
def overrideGrading (db : GradingDB) (answerId : Nat) (newScore : ℚ)
    (feedback overrideReason : String) (instructorId now : Nat) : GradingDB :=
  { answers := db.answers.map (overrideRow answerId newScore feedback overrideReason instructorId now)
    attempts := db.attempts }

/-- Sum of the per-answer scores of one attempt. -/
def attemptAnswerSum (db : GradingDB) (attemptId : Nat) : ℚ :=
  ((db.answers.filter (fun a => a.attempt_id = attemptId)).map AnswerRow.scored_marks).sum

/-- A joined row as seen by `getQuestionsRequiringManualGrading`. -/
structure PendingRow where
  grading_method : String
  grading_status : String
deriving DecidableEq

/-- The WHERE clause of `getQuestionsRequiringManualGrading`:
`grading_method = 'manual' AND grading_status != 'fully_graded'`. -/
def manualPendingFilter (rows : List PendingRow) : List PendingRow :=
  rows.filter (fun r => r.grading_method == "manual" && r.grading_status != "fully_graded")

/-!
Supporting lemmas about the string model.
-/

theorem head_dropWhile_false (p : Nat → Bool) : ∀ (l : JSString) (c : Nat),
    (l.dropWhile p).head? = some c → p c = false := by
  intro l
  induction l with
  | nil => intro c h; simp [List.dropWhile] at h
  | cons a t ih =>
    intro c h
    by_cases hp : p a
    · rw [List.dropWhile_cons_of_pos hp] at h; exact ih c h
    · rw [List.dropWhile_cons_of_neg hp] at h
      simp at h
      rw [← h]
      simpa using hp

theorem dropWhile_eq_self_of_head (p : Nat → Bool) (l : JSString)
    (h : ∀ c, l.head? = some c → p c = false) : l.dropWhile p = l := by
  cases l with
  | nil => rfl
  | cons a t => exact List.dropWhile_cons_of_neg (by simp [h a rfl])

theorem mem_of_mem_dropWhile (p : Nat → Bool) (l : JSString) (c : Nat)
    (h : c ∈ l.dropWhile p) : c ∈ l :=
  (List.dropWhile_suffix p).subset h

theorem dropWhile_map_comm (p : Nat → Bool) (f : Nat → Nat)
    (hf : ∀ c, p (f c) = p c) (l : JSString) :
    (l.map f).dropWhile p = (l.dropWhile p).map f := by
  rw [List.dropWhile_map]
  have hpf : (p ∘ f) = p := funext hf
  rw [hpf]

theorem mem_edgeDrop (p : Nat → Bool) (l : JSString) (c : Nat)
    (h : c ∈ edgeDrop p l) : c ∈ l := by
  unfold edgeDrop at h
  rw [List.mem_reverse] at h
  have h2 := mem_of_mem_dropWhile _ _ _ h
  rw [List.mem_reverse] at h2
  exact mem_of_mem_dropWhile _ _ _ h2

theorem head_edgeDrop_false (p : Nat → Bool) (l : JSString) (c : Nat)
    (h : (edgeDrop p l).head? = some c) : p c = false := by
  unfold edgeDrop at h
  set u := l.dropWhile p with hu
  have hpre : (u.reverse.dropWhile p).reverse <+: u := by
    have h0 : List.dropWhile p u.reverse <:+ u.reverse := List.dropWhile_suffix p
    have h1 := List.reverse_prefix.mpr h0
    simpa using h1
  obtain ⟨t, ht⟩ := hpre
  have hne : (u.reverse.dropWhile p).reverse ≠ [] := by
    intro hnil; rw [hnil] at h; simp at h
  have : u.head? = some c := by
    rw [← ht]
    cases hh : (u.reverse.dropWhile p).reverse with
    | nil => exact absurd hh hne
    | cons a s =>
      rw [hh] at h
      simp at h
      simp [hh, h]
  exact head_dropWhile_false p l c this

theorem last_edgeDrop_false (p : Nat → Bool) (l : JSString) (c : Nat)
    (h : (edgeDrop p l).reverse.head? = some c) : p c = false := by
  unfold edgeDrop at h
  rw [List.reverse_reverse] at h
  exact head_dropWhile_false p _ c h

theorem edgeDrop_eq_self (p : Nat → Bool) (l : JSString)
    (hh : ∀ c, l.head? = some c → p c = false)
    (hl : ∀ c, l.reverse.head? = some c → p c = false) : edgeDrop p l = l := by
  unfold edgeDrop
  rw [dropWhile_eq_self_of_head p l hh, dropWhile_eq_self_of_head p l.reverse hl,
    List.reverse_reverse]

theorem edgeDrop_idem (p : Nat → Bool) (l : JSString) :
    edgeDrop p (edgeDrop p l) = edgeDrop p l :=
  edgeDrop_eq_self p _ (head_edgeDrop_false p l) (last_edgeDrop_false p l)

theorem edgeDrop_map_comm (p : Nat → Bool) (f : Nat → Nat)
    (hf : ∀ c, p (f c) = p c) (l : JSString) :
    edgeDrop p (l.map f) = (edgeDrop p l).map f := by
  unfold edgeDrop
  rw [dropWhile_map_comm p f hf, ← List.map_reverse, dropWhile_map_comm p f hf,
    ← List.map_reverse]

theorem jsLowerChar_idem (c : Nat) : jsLowerChar (jsLowerChar c) = jsLowerChar c := by
  unfold jsLowerChar
  split_ifs <;> omega

theorem isWsChar_jsLowerChar (c : Nat) : isWsChar (jsLowerChar c) = isWsChar c := by
  unfold jsLowerChar
  split_ifs with h1
  · simp only [isWsChar]
    have : ¬(c + 32 = 32) ∧ ¬(c + 32 = 9) ∧ ¬(c + 32 = 10) ∧ ¬(c + 32 = 13)
        ∧ ¬(c + 32 = 11) ∧ ¬(c + 32 = 12) := by omega
    have h2 : ¬(c = 32) ∧ ¬(c = 9) ∧ ¬(c = 10) ∧ ¬(c = 13) ∧ ¬(c = 11) ∧ ¬(c = 12) := by
      omega
    simp [this.1, this.2.1, this.2.2.1, this.2.2.2.1, this.2.2.2.2.1, this.2.2.2.2.2,
      h2.1, h2.2.1, h2.2.2.1, h2.2.2.2.1, h2.2.2.2.2.1, h2.2.2.2.2.2]
  · rfl

theorem isQsChar_jsLowerChar (c : Nat) : isQsChar (jsLowerChar c) = isQsChar c := by
  unfold isQsChar
  rw [isWsChar_jsLowerChar]
  unfold jsLowerChar
  split_ifs with h1
  · have : ¬(c + 32 = 34) ∧ ¬(c + 32 = 39) ∧ ¬(c = 34) ∧ ¬(c = 39) := by omega
    simp [this.1, this.2.1, this.2.2.1, this.2.2.2]
  · rfl

theorem lowerStr_idem (s : JSString) : lowerStr (lowerStr s) = lowerStr s := by
  unfold lowerStr
  rw [List.map_map]
  exact List.map_congr_left (fun c _ => jsLowerChar_idem c)

theorem jsLowerChar_ne_bs (c : Nat) : jsLowerChar c = 92 → c = 92 := by
  unfold jsLowerChar
  split_ifs with h <;> omega

theorem lowerStr_no_bs (s : JSString) (h : 92 ∉ s) : 92 ∉ lowerStr s := by
  unfold lowerStr
  intro hmem
  rw [List.mem_map] at hmem
  obtain ⟨c, hc, hlc⟩ := hmem
  exact h (jsLowerChar_ne_bs c hlc ▸ hc)

theorem edgeDrop_within (p : Nat → Bool) (s : JSString) : edgeDrop p s <:+: s := by
  unfold edgeDrop
  have h0 : List.dropWhile p (s.dropWhile p).reverse <:+ (s.dropWhile p).reverse :=
    List.dropWhile_suffix p
  have h1 : ((s.dropWhile p).reverse.dropWhile p).reverse <+: s.dropWhile p := by
    have := List.reverse_prefix.mpr h0
    simpa using this
  exact h1.isInfix.trans (List.dropWhile_suffix p).isInfix

/-- The separation relation of a collapsed string: no two adjacent
whitespace characters. -/
def wsSep (a b : Nat) : Prop := ¬(isWsChar a = true ∧ isWsChar b = true)

/-- A string is in collapsed form: every whitespace character is a plain
space, and no two adjacent characters are both whitespace. -/
def WsCanon (s : JSString) : Prop :=
  (∀ c ∈ s, isWsChar c = true → c = 32) ∧ s.Chain' wsSep

theorem mem_collapseWsAux : ∀ (s : JSString) (b : Bool) (c : Nat),
    c ∈ collapseWsAux b s → c = 32 ∨ (c ∈ s ∧ isWsChar c = false) := by
  intro s
  induction s with
  | nil => intro b c h; simp [collapseWsAux] at h
  | cons a t ih =>
    intro b c h
    unfold collapseWsAux at h
    by_cases hw : isWsChar a
    · rw [if_pos hw] at h
      cases b with
      | true =>
        rw [if_pos rfl] at h
        rcases ih true c h with h1 | h2
        · exact Or.inl h1
        · exact Or.inr ⟨List.mem_cons_of_mem a h2.1, h2.2⟩
      | false =>
        rw [if_neg Bool.false_ne_true] at h
        rcases List.mem_cons.mp h with h1 | h1
        · exact Or.inl h1
        · rcases ih true c h1 with h2 | h3
          · exact Or.inl h2
          · exact Or.inr ⟨List.mem_cons_of_mem a h3.1, h3.2⟩
    · rw [if_neg hw] at h
      rcases List.mem_cons.mp h with h1 | h1
      · subst h1
        exact Or.inr ⟨List.mem_cons_self c t, by simpa using hw⟩
      · rcases ih false c h1 with h2 | h3
        · exact Or.inl h2
        · exact Or.inr ⟨List.mem_cons_of_mem a h3.1, h3.2⟩

theorem collapseWsAux_canon : ∀ (s : JSString) (b : Bool),
    (∀ c ∈ collapseWsAux b s, isWsChar c = true → c = 32)
    ∧ (collapseWsAux b s).Chain' wsSep
    ∧ (b = true → ∀ c, (collapseWsAux b s).head? = some c → isWsChar c = false) := by
  intro s
  induction s with
  | nil => intro b; refine ⟨by simp [collapseWsAux], by simp [collapseWsAux], ?_⟩
           intro _ c h; simp [collapseWsAux] at h
  | cons a t ih =>
    intro b
    unfold collapseWsAux
    by_cases hw : isWsChar a
    · rw [if_pos hw]
      cases b with
      | true =>
        rw [if_pos rfl]
        exact ⟨(ih true).1, (ih true).2.1, fun _ => (ih true).2.2 rfl⟩
      | false =>
        rw [if_neg Bool.false_ne_true]
        refine ⟨?_, ?_, by simp⟩
        · intro c hc hwc
          rcases List.mem_cons.mp hc with h1 | h1
          · exact h1
          · exact (ih true).1 c h1 hwc
        · rw [List.chain'_cons']
          refine ⟨?_, (ih true).2.1⟩
          intro y hy
          have := (ih true).2.2 rfl y hy
          exact fun hcon => by rw [this] at hcon; exact Bool.false_ne_true hcon.2
    · rw [if_neg hw]
      have hwa : isWsChar a = false := by simpa using hw
      refine ⟨?_, ?_, ?_⟩
      · intro c hc hwc
        rcases List.mem_cons.mp hc with h1 | h1
        · subst h1; rw [hwc] at hwa; exact absurd hwa (by simp)
        · exact (ih false).1 c h1 hwc
      · rw [List.chain'_cons']
        refine ⟨?_, (ih false).2.1⟩
        intro y _
        exact fun hcon => by rw [hwa] at hcon; exact Bool.false_ne_true hcon.1
      · intro _ c hc
        simp at hc
        rw [← hc]
        exact hwa

theorem collapseWsAux_fix : ∀ s : JSString, WsCanon s →
    collapseWsAux false s = s
    ∧ ((∀ c, s.head? = some c → isWsChar c = false) → collapseWsAux true s = s) := by
  intro s
  induction s with
  | nil => intro _; exact ⟨rfl, fun _ => rfl⟩
  | cons a t ih =>
    intro hcanon
    obtain ⟨hchars, hchain⟩ := hcanon
    rw [List.chain'_cons'] at hchain
    have hcanonT : WsCanon t := ⟨fun c hc => hchars c (List.mem_cons_of_mem a hc), hchain.2⟩
    constructor
    · unfold collapseWsAux
      by_cases hw : isWsChar a
      · rw [if_pos hw]
        rw [if_neg Bool.false_ne_true]
        have ha32 : a = 32 := hchars a (List.mem_cons_self a t) hw
        have hth : ∀ c, t.head? = some c → isWsChar c = false := by
          intro c hc
          have := hchain.1 c (by rw [hc]; rfl)
          unfold wsSep at this
          by_contra hcw
          exact this ⟨hw, by simpa using hcw⟩
        rw [(ih hcanonT).2 hth, ha32]
      · rw [if_neg hw, (ih hcanonT).1]
    · intro hhead
      unfold collapseWsAux
      have hwa : isWsChar a = false := hhead a rfl
      rw [if_neg (by simp [hwa]), (ih hcanonT).1]

theorem collapseWs_canon (s : JSString) : WsCanon (collapseWs s) :=
  ⟨(collapseWsAux_canon s false).1, (collapseWsAux_canon s false).2.1⟩

theorem collapseWs_fix (s : JSString) (h : WsCanon s) : collapseWs s = s :=
  (collapseWsAux_fix s h).1

theorem normalizeText_chars (s : JSString) :
    ∀ c ∈ normalizeText s, jsLowerChar c = c ∧ (isWordChar c || isWsChar c) = true
      ∧ (isWsChar c = true → c = 32) := by
  intro c hc
  unfold normalizeText trimStr at hc
  have hc1 := mem_edgeDrop _ _ _ hc
  unfold collapseWs at hc1
  rcases mem_collapseWsAux _ _ _ hc1 with h32 | ⟨hmem, hws⟩
  · subst h32
    exact ⟨by decide, by decide, fun _ => rfl⟩
  · unfold stripNonWord at hmem
    rw [List.mem_filter] at hmem
    obtain ⟨hlow, hpred⟩ := hmem
    unfold lowerStr at hlow
    rw [List.mem_map] at hlow
    obtain ⟨c0, _, hc0⟩ := hlow
    refine ⟨?_, hpred, ?_⟩
    · rw [← hc0]; exact jsLowerChar_idem c0
    · intro hwc; rw [hwc] at hws; exact absurd hws (by simp)

theorem normalizeText_canon (s : JSString) : WsCanon (normalizeText s) := by
  constructor
  · intro c hc hw
    exact (normalizeText_chars s c hc).2.2 hw
  · unfold normalizeText trimStr
    obtain ⟨l2, l3, heq⟩ := edgeDrop_within isWsChar (collapseWs (stripNonWord (lowerStr s)))
    have hchain := (collapseWs_canon (stripNonWord (lowerStr s))).2
    show List.Chain' wsSep (edgeDrop isWsChar (collapseWs (stripNonWord (lowerStr s))))
    rw [show collapseWs (stripNonWord (lowerStr s))
        = l2 ++ edgeDrop isWsChar (collapseWs (stripNonWord (lowerStr s))) ++ l3
        from heq.symm] at hchain
    exact hchain.left_of_append.right_of_append

theorem normalizeText_idem (s : JSString) :
    normalizeText (normalizeText s) = normalizeText s := by
  have hchars := normalizeText_chars s
  have hlow : lowerStr (normalizeText s) = normalizeText s := by
    unfold lowerStr
    calc (normalizeText s).map jsLowerChar
        = (normalizeText s).map id := List.map_congr_left (fun c hc => (hchars c hc).1)
      _ = normalizeText s := List.map_id _
  have hstrip : stripNonWord (normalizeText s) = normalizeText s := by
    unfold stripNonWord
    rw [List.filter_eq_self]
    exact fun c hc => (hchars c hc).2.1
  have hcol : collapseWs (normalizeText s) = normalizeText s :=
    collapseWs_fix _ (normalizeText_canon s)
  have htrim : trimStr (normalizeText s) = normalizeText s :=
    edgeDrop_idem isWsChar (collapseWs (stripNonWord (lowerStr s)))
  show trimStr (collapseWs (stripNonWord (lowerStr (normalizeText s)))) = normalizeText s
  rw [hlow, hstrip, hcol, htrim]

theorem replaceBQ_no_bs : ∀ s : JSString, 92 ∉ s → replaceBQ s = s := by
  intro s
  induction s using replaceBQ.induct with
  | case1 => intro _; rfl
  | case2 a => intro _; rfl
  | case3 a b rest hab ih =>
    intro h
    exact absurd (by rw [hab.1]; exact List.mem_cons_self 92 _) h
  | case4 a b rest hab ih =>
    intro h
    unfold replaceBQ
    rw [if_neg hab, ih (fun hm => h (List.mem_cons_of_mem a hm))]

theorem trimStr_lowerStr_comm (s : JSString) :
    trimStr (lowerStr s) = lowerStr (trimStr s) :=
  edgeDrop_map_comm isWsChar jsLowerChar isWsChar_jsLowerChar s

theorem stripQS_lowerStr_comm (s : JSString) :
    stripQS (lowerStr s) = lowerStr (stripQS s) :=
  edgeDrop_map_comm isQsChar jsLowerChar isQsChar_jsLowerChar s

theorem lowerStr_mem_of_mem (s : JSString) (c : Nat) (h : c ∈ lowerStr s) :
    ∃ c0 ∈ s, jsLowerChar c0 = c := by
  unfold lowerStr at h
  rw [List.mem_map] at h
  exact h

theorem qs_false_ws_false (c : Nat) (h : isQsChar c = false) : isWsChar c = false := by
  unfold isQsChar at h
  simp only [Bool.or_eq_false_iff] at h
  exact h.2

theorem cleanVal_idem_no_bs (s : JSString) (h : 92 ∉ s) :
    cleanVal (some (cleanVal (some s))) = cleanVal (some s) := by
  have h1 : 92 ∉ trimStr s := fun hm => h (mem_edgeDrop _ _ _ hm)
  have h2 : 92 ∉ lowerStr (trimStr s) := lowerStr_no_bs _ h1
  have e1 : cleanVal (some s) = lowerStr (trimStr s) := replaceBQ_no_bs _ h2
  rw [e1]
  show replaceBQ (lowerStr (trimStr (lowerStr (trimStr s)))) = lowerStr (trimStr s)
  rw [trimStr_lowerStr_comm]
  rw [show trimStr (trimStr s) = trimStr s from edgeDrop_idem _ _]
  rw [lowerStr_idem]
  exact replaceBQ_no_bs _ h2

theorem cleanAnalytics_idem_no_bs (s : JSString) (h : 92 ∉ s) :
    cleanAnalytics (some (cleanAnalytics (some s))) = cleanAnalytics (some s) := by
  have hu92 : 92 ∉ stripQS s := fun hm => h (mem_edgeDrop _ _ _ hm)
  have htrimu : trimStr (stripQS s) = stripQS s := by
    refine edgeDrop_eq_self isWsChar _ ?_ ?_
    · intro c hc
      exact qs_false_ws_false c (head_edgeDrop_false isQsChar s c hc)
    · intro c hc
      exact qs_false_ws_false c (last_edgeDrop_false isQsChar s c hc)
  have e1 : cleanAnalytics (some s) = lowerStr (stripQS s) := by
    show lowerStr (trimStr (stripQS (replaceBQ s))) = _
    rw [replaceBQ_no_bs s h, htrimu]
  rw [e1]
  have hlu92 : 92 ∉ lowerStr (stripQS s) := lowerStr_no_bs _ hu92
  show lowerStr (trimStr (stripQS (replaceBQ (lowerStr (stripQS s)))))
      = lowerStr (stripQS s)
  rw [replaceBQ_no_bs _ hlu92, stripQS_lowerStr_comm,
    show stripQS (stripQS s) = stripQS s from edgeDrop_idem _ _,
    trimStr_lowerStr_comm, htrimu, lowerStr_idem]

theorem foldl_count_eq_countP {α : Type} (p : α → Bool) (l : List α) :
    ∀ acc : Nat, l.foldl (fun acc x => if p x then acc + 1 else acc) acc = acc + l.countP p := by
  induction l with
  | nil => intro acc; simp
  | cons a t ih =>
    intro acc
    by_cases hp : p a <;> simp [List.countP_cons, hp, ih] <;> omega

theorem countMatched_eq_countP (answer : JSString) (required : List JSString) :
    countMatched answer required
      = required.countP (fun kw => hasSub answer (normalizeText kw)) := by
  unfold countMatched
  rw [foldl_count_eq_countP]
  omega

theorem countTokenMatches_eq_countP (studentWords : List JSString) (words : List JSString) :
    countTokenMatches studentWords words
      = words.countP (fun w => studentWords.contains w) := by
  unfold countTokenMatches
  rw [foldl_count_eq_countP, Nat.zero_add]

theorem submitLoop_total_eq_sum : ∀ items : List (SubQuestion × Option JSString),
    (submitLoop items).2 = (submitLoop items).1.sum := by
  intro items
  induction items with
  | nil => simp [submitLoop]
  | cons item rest ih =>
    obtain ⟨q, a⟩ := item
    simp only [submitLoop, List.sum_cons]
    rw [ih]

theorem submitLoop_scores_eq_map : ∀ items : List (SubQuestion × Option JSString),
    (submitLoop items).1 = items.map storedScore := by
  intro items
  induction items with
  | nil => rfl
  | cons item rest ih =>
    obtain ⟨q, a⟩ := item
    simp only [submitLoop, List.map_cons, storedScore]
    rw [ih]

theorem gradeLoop_eq_map : ∀ qs : List QA, gradeLoop qs = qs.map gradeQuestionTotal := by
  intro qs
  induction qs with
  | nil => rfl
  | cons qa rest ih => simp only [gradeLoop, List.map_cons]; rw [ih]

example : normalizeText (jstr "  Hello,  World!_x ") = jstr "hello world_x" := by decide
example : cleanVal (some (jstr "  A\\\"B ")) = jstr "a\"b" := by decide
example : cleanAnalytics (some (jstr " \"Paris\" ")) = jstr "paris" := by decide
example : hasSub (jstr "plants make energy") (jstr "energy") = true := by decide
example : splitWs (jstr " a  b ") = [jstr "", jstr "a", jstr "b", jstr ""] := by decide
example :
    evaluateShortAnswer (some (jstr "Mitochondria is a cell part"))
      (some ⟨some [jstr "mitochondria", jstr "energy"], some 2⟩) = false := by decide

/-!
Claim theorems.
-/

/-- C1: in the submission path, the per-question score is `positive_marks`
when the evaluator judges the answer correct; `-abs(negative_marks)` when
the question was answered but judged incorrect; and exactly 0 when the
raw answer is null/undefined, regardless of `negative_marks` (and in the
consolidated service, an absent selection scores 0). -/
theorem C1_per_question_score :
    (∀ (a : Option JSString) (p n : ℚ), questionScore true a (some p) (some n) = p)
    ∧ (∀ (s : JSString) (p n : ℚ), questionScore false (some s) (some p) (some n) = -|n|)
    ∧ (∀ pn nn : Option ℚ, questionScore false none pn nn = 0)
    ∧ (∀ (c : Option JSString) (m : ℚ), (gradeMultipleChoice none c m).scored_marks = 0) := by
  refine ⟨?_, ?_, ?_, ?_⟩ <;> intros <;> simp [questionScore, gradeMultipleChoice]

/-- C2: the persisted attempt total is `max(0, Σ per-question scores)` —
never negative even when the raw sum is — while the stored per-question
scores are exactly the unclamped evaluator outputs; witnessed concretely
by a one-question attempt that stores `-2` but persists a total of 0. -/
theorem C2_attempt_total_clamped :
    (∀ items : List (SubQuestion × Option JSString),
      persistedTotal items = max 0 ((submitLoop items).1).sum
      ∧ 0 ≤ persistedTotal items
      ∧ (submitLoop items).1 = items.map storedScore)
    ∧ (submitLoop [(⟨false, none, some (jstr "B"), some 1, some 2⟩, some (jstr "A"))]).1 = [-2]
    ∧ persistedTotal [(⟨false, none, some (jstr "B"), some 1, some 2⟩, some (jstr "A"))] = 0 := by
  have hcor : submissionIsCorrect ⟨false, none, some (jstr "B"), some 1, some 2⟩
      (some (jstr "A")) = false := by decide
  have hsc : questionScore false (some (jstr "A")) (some 1) (some 2) = -2 := by
    unfold questionScore
    norm_num
  refine ⟨?_, ?_, ?_⟩
  · intro items
    refine ⟨?_, le_max_left 0 _, submitLoop_scores_eq_map items⟩
    unfold persistedTotal
    rw [submitLoop_total_eq_sum]
  · simp only [submitLoop, hcor, hsc]
  · unfold persistedTotal
    simp only [submitLoop, hcor, hsc]
    norm_num

/-- C7: an essay question with no rubric is never auto-graded: the
evaluator returns `grading_method = "manual"` and `scored_marks = 0` for
every student answer, and a `student_answers` row carrying that method on
a not-fully-graded attempt is selected by the manual-grading queue
query. -/
theorem C7_essay_without_rubric_manual :
    ∀ (ans : Option JSString) (marks : ℚ) (rows : List PendingRow),
      (gradeEssay ans none marks).grading_method = "manual"
      ∧ (gradeEssay ans none marks).scored_marks = 0
      ∧ manualPendingFilter
          (⟨(gradeEssay ans none marks).grading_method, "partially_graded"⟩ :: rows)
        = ⟨(gradeEssay ans none marks).grading_method, "partially_graded"⟩
            :: manualPendingFilter rows := by
  intro ans marks rows
  have hm : (gradeEssay ans none marks).grading_method = "manual" := by
    cases ans with
    | none => rfl
    | some s => by_cases ht : trimStr s = [] <;> simp [gradeEssay, ht]
  have hz : (gradeEssay ans none marks).scored_marks = 0 := by
    cases ans with
    | none => rfl
    | some s => by_cases ht : trimStr s = [] <;> simp [gradeEssay, ht]
  refine ⟨hm, hz, ?_⟩
  unfold manualPendingFilter
  rw [List.filter_cons_of_pos]
  rw [hm]
  decide

/-- C9: in the submission path's non-short-answer branch, a null student
answer is judged correct exactly when `correct_answer` also cleans to the
empty string (since `clean` maps null to `""`), in which case the stored
score is the question's `positive_marks`; otherwise a null answer is
judged incorrect and scores exactly 0. -/
theorem C9_null_answer_vs_empty_clean :
    ∀ (corr : Option JSString) (r : Option SARule) (p n : ℚ),
      (submissionIsCorrect ⟨false, r, corr, some p, some n⟩ none = true
        ↔ cleanVal corr = [])
      ∧ (cleanVal corr = [] →
          storedScore (⟨false, r, corr, some p, some n⟩, none) = p)
      ∧ (cleanVal corr ≠ [] →
          submissionIsCorrect ⟨false, r, corr, some p, some n⟩ none = false
          ∧ storedScore (⟨false, r, corr, some p, some n⟩, none) = 0) := by
  intro corr r p n
  have h0 : submissionIsCorrect ⟨false, r, corr, some p, some n⟩ none
      = (cleanVal corr == ([] : JSString)) := rfl
  refine ⟨?_, ?_, ?_⟩
  · rw [h0]; simp
  · intro hc
    unfold storedScore
    rw [show submissionIsCorrect ⟨false, r, corr, some p, some n⟩ none = true by
      rw [h0, hc]; rfl]
    rfl
  · intro hc
    have hfalse : submissionIsCorrect ⟨false, r, corr, some p, some n⟩ none = false := by
      rw [h0]; simpa using hc
    refine ⟨hfalse, ?_⟩
    unfold storedScore
    rw [hfalse]
    rfl

/-- Witness for C9: a whitespace-only correct answer cleans to `""`, so an
unanswered question is judged correct and receives a positive score. -/
theorem C9_null_answer_vs_empty_clean_witness :
    storedScore (⟨false, none, some (jstr "  "), some 3, some 1⟩, none) = 3
    ∧ (0 : ℚ) < 3 :=
  ⟨(C9_null_answer_vs_empty_clean (some (jstr "  ")) none 3 1).2.1 (by decide),
   by norm_num⟩

/-- Counterexample for C3: with `min_required_match = 0` present, the
claim's reading (threshold 0, so any answer matches) says correct, but
the code treats 0 as falsy and falls back to requiring all keywords, so
the answer is judged incorrect. -/
theorem C3_counterexample :
    evaluateShortAnswerSpec (some (jstr "xyz"))
      (some ⟨some [jstr "alpha", jstr "beta"], some 0⟩) = true
    ∧ evaluateShortAnswer (some (jstr "xyz"))
      (some ⟨some [jstr "alpha", jstr "beta"], some 0⟩) = false := by decide

/-- C3 (amended): for a non-empty answer and a rule carrying
`required_keywords`, the keyword-match evaluator returns true iff the
number of required keywords whose normalized form occurs as a substring
of the normalized answer is at least the effective threshold, where the
threshold defaults to `required_keywords.length` when `min_required_match`
is absent **or zero** (JavaScript falsiness); correctness is a Bool, so
this mode is binary. -/
theorem C3_keyword_threshold (s : JSString) (r : SARule) (rk : List JSString)
    (hs : s ≠ []) (hk : r.required_keywords = some rk) :
    evaluateShortAnswer (some s) (some r) = true
      ↔ rk.countP (fun kw => hasSub (normalizeText s) (normalizeText kw))
          ≥ effectiveMinMatch r rk := by
  unfold evaluateShortAnswer effectiveMinMatch
  simp only [hk, Option.getD_some, if_neg hs, countMatched_eq_countP, decide_eq_true_eq]

/-- Witness for C3: the spec's own scenario, both keywords present. -/
theorem C3_keyword_threshold_witness :
    evaluateShortAnswer (some (jstr "Mitochondria produce energy"))
      (some ⟨some [jstr "mitochondria", jstr "energy"], some 2⟩) = true :=
  (C3_keyword_threshold (jstr "Mitochondria produce energy")
    ⟨some [jstr "mitochondria", jstr "energy"], some 2⟩
    [jstr "mitochondria", jstr "energy"] (by decide) rfl).mpr (by decide)

/-- C5: the orchestrator grades every question of the attempt — one
result per question, in order — and a question whose evaluator throws is
recorded with `grading_method = "manual"`, `scored_marks = 0` and an
error note, without affecting any other question's result. -/
theorem C5_evaluator_failure_isolated :
    ∀ qs : List QA,
      (gradeLoop qs).length = qs.length
      ∧ gradeLoop qs = qs.map gradeQuestionTotal
      ∧ (∀ qa msg, evalQuestionE qa = .error msg →
          gradeQuestionTotal qa
            = ⟨0, "Auto-grading failed - requires manual review", "manual",
               "Error: " ++ msg⟩) := by
  intro qs
  refine ⟨?_, gradeLoop_eq_map qs, ?_⟩
  · rw [gradeLoop_eq_map]
    exact List.length_map _ _
  · intro qa msg h
    unfold gradeQuestionTotal
    rw [h]

/-- Witness for C5: a `true_false` question with SQL-NULL
`correct_answer` and a non-empty student answer throws; in a two-question
attempt both questions still receive results and the throwing one is
marked manual with zero marks. -/
theorem C5_evaluator_failure_isolated_witness :
    (gradeLoop [⟨1, .trueFalse, none, none, none, 2, some (jstr "true"), none⟩,
                ⟨2, .mcq, some (jstr "B"), none, none, 1, none, some [jstr "B"]⟩]).length = 2
    ∧ gradeQuestionTotal ⟨1, .trueFalse, none, none, none, 2, some (jstr "true"), none⟩
        = ⟨0, "Auto-grading failed - requires manual review", "manual",
           "Error: " ++ "Cannot read properties of null"⟩ :=
  ⟨(C5_evaluator_failure_isolated
      [⟨1, .trueFalse, none, none, none, 2, some (jstr "true"), none⟩,
       ⟨2, .mcq, some (jstr "B"), none, none, 1, none, some [jstr "B"]⟩]).1,
   (C5_evaluator_failure_isolated []).2.2
     ⟨1, .trueFalse, none, none, none, 2, some (jstr "true"), none⟩
     "Cannot read properties of null" rfl⟩

/-- Counterexample for C8: after overriding one answer of a two-answer
attempt from 1 to 5 marks, the answers of the attempt sum to 6, but the
attempt row still carries its old aggregate 2 — `overrideGrading` never
touches `assessment_attempts`, so the aggregate does not reflect the new
sum. -/
theorem C8_counterexample :
    attemptAnswerSum
      (overrideGrading
        ⟨[⟨1, 1, none, 1, "auto", "", "", none, none⟩,
          ⟨2, 1, none, 1, "auto", "", "", none, none⟩], [⟨1, 2⟩]⟩
        1 5 "good work" "recount" 9 100) 1 = 6
    ∧ (overrideGrading
        ⟨[⟨1, 1, none, 1, "auto", "", "", none, none⟩,
          ⟨2, 1, none, 1, "auto", "", "", none, none⟩], [⟨1, 2⟩]⟩
        1 5 "good work" "recount" 9 100).attempts = [⟨1, 2⟩]
    ∧ ((2 : ℚ) ≠ 6) := by
  refine ⟨?_, rfl, by norm_num⟩
  have hans : (overrideGrading
      ⟨[⟨1, 1, none, 1, "auto", "", "", none, none⟩,
        ⟨2, 1, none, 1, "auto", "", "", none, none⟩], [⟨1, 2⟩]⟩
      1 5 "good work" "recount" 9 100).answers
      = [⟨1, 1, none, 5, "manual_override", "good work", "recount", some 9, some 100⟩,
         ⟨2, 1, none, 1, "auto", "", "", none, none⟩] := by decide
  unfold attemptAnswerSum
  rw [hans]
  norm_num [List.filter]

/-- C8 (amended): `overrideGrading` rewrites only the targeted answer row
— setting its score, feedback, `grading_method = "manual_override"`,
grading notes and audit columns, and leaving its identity columns intact
— leaves every sibling answer unchanged, and does **not** recompute the
attempt-level aggregate: the attempts table is returned untouched. -/
theorem C8_override_touches_one_row :
    ∀ (db : GradingDB) (answerId : Nat) (newScore : ℚ) (fb rsn : String) (iid now : Nat),
      (overrideGrading db answerId newScore fb rsn iid now).attempts = db.attempts
      ∧ (overrideGrading db answerId newScore fb rsn iid now).answers
          = db.answers.map (overrideRow answerId newScore fb rsn iid now)
      ∧ (∀ a : AnswerRow, a.id ≠ answerId →
          overrideRow answerId newScore fb rsn iid now a = a)
      ∧ (∀ a : AnswerRow,
          (overrideRow answerId newScore fb rsn iid now a).id = a.id
          ∧ (overrideRow answerId newScore fb rsn iid now a).attempt_id = a.attempt_id
          ∧ (overrideRow answerId newScore fb rsn iid now a).student_answer = a.student_answer
          ∧ (a.id = answerId →
              (overrideRow answerId newScore fb rsn iid now a).scored_marks = newScore
              ∧ (overrideRow answerId newScore fb rsn iid now a).grading_method
                  = "manual_override"
              ∧ (overrideRow answerId newScore fb rsn iid now a).feedback = fb
              ∧ (overrideRow answerId newScore fb rsn iid now a).grading_notes = rsn
              ∧ (overrideRow answerId newScore fb rsn iid now a).overridden_by = some iid
              ∧ (overrideRow answerId newScore fb rsn iid now a).overridden_at = some now)) := by
  intro db answerId newScore fb rsn iid now
  refine ⟨rfl, rfl, ?_, ?_⟩
  · intro a ha
    unfold overrideRow
    rw [if_neg ha]
  · intro a
    unfold overrideRow
    by_cases ha : a.id = answerId
    · rw [if_pos ha]
      exact ⟨rfl, rfl, rfl, fun _ => ⟨rfl, rfl, rfl, rfl, rfl, rfl⟩⟩
    · rw [if_neg ha]
      exact ⟨rfl, rfl, rfl, fun hc => absurd hc ha⟩

/-- Witness for C8: a sibling row with a different id is untouched by the
override update. -/
theorem C8_override_touches_one_row_witness :
    overrideRow 1 5 "good work" "recount" 9 100
      ⟨2, 1, none, 1, "auto", "", "", none, none⟩
      = ⟨2, 1, none, 1, "auto", "", "", none, none⟩ :=
  (C8_override_touches_one_row ⟨[], []⟩ 1 5 "good work" "recount" 9 100).2.2.1
    ⟨2, 1, none, 1, "auto", "", "", none, none⟩ (by decide)

/-- Counterexample for C4: a graded attempt scoring 1 of 3 marks reports
percentage 33 (nearest integer, `Math.round`), not 33.33 as the claimed
two-decimal rounding would give.  Code point 66 is "B", 65 is "A". -/
theorem C4_counterexample :
    (gradeAssessmentAttempt
      [⟨1, .mcq, some [66], none, none, 1, none, some [[66]]⟩,
       ⟨2, .mcq, some [66], none, none, 2, none, some [[65]]⟩]).percentage = 33
    ∧ round2Spec ((1 : ℚ) / 3 * 100) = 3333 / 100
    ∧ ((33 : ℚ) ≠ 3333 / 100) := by
  refine ⟨?_, ?_, by norm_num⟩
  · show (if ((1 : ℚ) + (2 + 0)) > 0
        then ((jsRound (((1 : ℚ) + (0 + 0)) / ((1 : ℚ) + (2 + 0)) * 100) : ℤ) : ℚ)
        else 0) = 33
    rw [if_pos (by norm_num)]
    norm_num [jsRound, Int.floor_eq_iff]
  · unfold round2Spec jsRound
    norm_num [Int.floor_eq_iff]

/-- C4 (amended): both the consolidated grading service and the analytics
model compute `percentage = Math.round(score / maxScore * 100)` — rounded
to the nearest integer, not to two decimal places — and 0 when the
maximum is not positive; the two paths agree on the same inputs. -/
theorem C4_percentage_integer_rounding :
    ∀ qs : List QA,
      ((gradeAssessmentAttempt qs).total_marks > 0 →
        (gradeAssessmentAttempt qs).percentage
          = ((jsRound ((gradeAssessmentAttempt qs).scored_marks
              / (gradeAssessmentAttempt qs).total_marks * 100) : ℤ) : ℚ))
      ∧ (¬ (gradeAssessmentAttempt qs).total_marks > 0 →
          (gradeAssessmentAttempt qs).percentage = 0)
      ∧ (∀ o m : ℚ,
          (m > 0 → studentPercentage o m = ((jsRound (o / m * 100) : ℤ) : ℚ))
          ∧ (¬ m > 0 → studentPercentage o m = 0))
      ∧ studentPercentage (gradeAssessmentAttempt qs).scored_marks
          (gradeAssessmentAttempt qs).total_marks
        = (gradeAssessmentAttempt qs).percentage := by
  intro qs
  refine ⟨?_, ?_, ?_, ?_⟩
  · intro h
    have h' : (gradeAgg qs).1 > 0 := h
    show (if (gradeAgg qs).1 > 0 then _ else _) = _
    rw [if_pos h']
    rfl
  · intro h
    have h' : ¬ (gradeAgg qs).1 > 0 := h
    show (if (gradeAgg qs).1 > 0 then _ else _) = _
    rw [if_neg h']
  · intro o m
    constructor
    · intro h
      unfold studentPercentage
      rw [if_pos h]
    · intro h
      unfold studentPercentage
      rw [if_neg h]
  · rfl

/-- Witness for C4: a 1-of-3 score has positive maximum and yields the
integer-rounded percentage 33. -/
theorem C4_percentage_integer_rounding_witness :
    studentPercentage 1 3 = ((jsRound ((1 : ℚ) / 3 * 100) : ℤ) : ℚ)
    ∧ ((jsRound ((1 : ℚ) / 3 * 100) : ℤ) : ℚ) = 33 :=
  ⟨((C4_percentage_integer_rounding []).2.2.1 1 3).1 (by norm_num),
   by norm_num [jsRound, Int.floor_eq_iff]⟩

/-- Counterexample for C6: the two escaped-quote-replacing cleaners are
not idempotent: on the three-character string `\\"` (code points
92, 92, 34) the first pass yields `\"`, which a second pass reduces
further to `"`; likewise for the analytics cleaner on `\\"x`. -/
theorem C6_counterexample :
    cleanVal (some (cleanVal (some [92, 92, 34]))) ≠ cleanVal (some [92, 92, 34])
    ∧ cleanAnalytics (some (cleanAnalytics (some [92, 92, 34, 120])))
        ≠ cleanAnalytics (some [92, 92, 34, 120]) := by
  constructor
  · decide
  · decide

/-- C6 (amended): `normalizeText` (the short-answer normalizer) is
idempotent on every string; the two escaped-quote-replacing cleaners
(submission path and analytics path) are idempotent on every value whose
string contains no backslash, but not in general (see the
counterexample). -/
theorem C6_normalization_idempotent :
    (∀ s : JSString, normalizeText (normalizeText s) = normalizeText s)
    ∧ (∀ v : Option JSString, 92 ∉ v.getD [] →
        cleanVal (some (cleanVal v)) = cleanVal v)
    ∧ (∀ v : Option JSString, 92 ∉ v.getD [] →
        cleanAnalytics (some (cleanAnalytics v)) = cleanAnalytics v) := by
  refine ⟨normalizeText_idem, ?_, ?_⟩
  · intro v hv
    cases v with
    | none => rfl
    | some s => exact cleanVal_idem_no_bs s (by simpa using hv)
  · intro v hv
    cases v with
    | none => rfl
    | some s => exact cleanAnalytics_idem_no_bs s (by simpa using hv)

/-- Witness for C6: idempotence at concrete backslash-free inputs. -/
theorem C6_normalization_idempotent_witness :
    normalizeText (normalizeText (jstr "  Hello,  World! "))
      = normalizeText (jstr "  Hello,  World! ")
    ∧ cleanVal (some (cleanVal (some (jstr " 'A\"B' "))))
      = cleanVal (some (jstr " 'A\"B' "))
    ∧ cleanAnalytics (some (cleanAnalytics (some (jstr " 'A\"B' "))))
      = cleanAnalytics (some (jstr " 'A\"B' ")) :=
  ⟨C6_normalization_idempotent.1 (jstr "  Hello,  World! "),
   C6_normalization_idempotent.2.1 (some (jstr " 'A\"B' ")) (by decide),
   C6_normalization_idempotent.2.2 (some (jstr " 'A\"B' ")) (by decide)⟩

/-- C10: in the consolidated grading service, keyword matching is
whole-token: a keyword counts only when it equals (case-insensitively) an
entire whitespace-delimited token, so "energy" does not match the token
"energy." — unlike the submission path's substring matcher, which accepts
the same answer; and a parsed rubric whose criteria list is absent or
empty grades as `auto` with 0 marks instead of being routed to manual
grading. -/
theorem C10_token_match_vs_substring :
    (∀ (studentWords : List JSString) (words : List JSString),
        countTokenMatches studentWords words
          = words.countP (fun w => studentWords.contains w))
    ∧ countTokenMatches (splitWs (lowerStr (jstr "plants make energy.")))
        (splitWs (lowerStr (jstr "energy"))) = 0
    ∧ (gradeByKeywordMatching (jstr "plants make energy.")
        (some (jstr "energy")) 5).scored_marks = 0
    ∧ evaluateShortAnswer (some (jstr "plants make energy."))
        (some ⟨some [jstr "energy"], none⟩) = true
    ∧ criterionScore (jstr "plants make energy.")
        ⟨"coverage", 4, some [jstr "energy"], none⟩ = 0
    ∧ (∀ (s : JSString) (m : ℚ),
        (applyRubricGrading s ⟨none⟩ m).scored_marks = 0
        ∧ (applyRubricGrading s ⟨none⟩ m).grading_method = "auto"
        ∧ (applyRubricGrading s ⟨some []⟩ m).scored_marks = 0
        ∧ (applyRubricGrading s ⟨some []⟩ m).grading_method = "auto") := by
  refine ⟨countTokenMatches_eq_countP, by decide, ?_, by decide, ?_, ?_⟩
  · show ((jsRound ((if (splitWs (lowerStr (jstr "energy"))).length > 0
        then ((countTokenMatches (splitWs (lowerStr (jstr "plants make energy.")))
            (splitWs (lowerStr (jstr "energy"))) : ℕ) : ℚ)
            / ((splitWs (lowerStr (jstr "energy"))).length : ℕ)
        else 0) * 5) : ℤ) : ℚ) = 0
    have hm : countTokenMatches (splitWs (lowerStr (jstr "plants make energy.")))
        (splitWs (lowerStr (jstr "energy"))) = 0 := by decide
    have hl : (splitWs (lowerStr (jstr "energy"))).length = 1 := by decide
    rw [hm, hl]
    norm_num [jsRound, Int.floor_eq_iff]
  · show ((jsRound ((([jstr "energy"].foldl
        (fun acc k => if (splitWs (lowerStr (jstr "plants make energy."))).contains
            (lowerStr k) then acc + 1 else acc) 0 : ℕ) : ℚ)
        / (([jstr "energy"].length : ℕ) : ℚ) * 4) : ℤ) : ℚ) = 0
    have hm : ([jstr "energy"].foldl
        (fun acc k => if (splitWs (lowerStr (jstr "plants make energy."))).contains
            (lowerStr k) then acc + 1 else acc) 0 : ℕ) = 0 := by decide
    rw [hm]
    norm_num [jsRound, Int.floor_eq_iff]
  · intro s m
    exact ⟨rfl, rfl, rfl, rfl⟩
